import Mathlib

/-!
# Verification of the retrieval-and-ranking core (`app/vector_search.py`)

Shallow embedding of the retrieval layer of the RAG assistant:
`load_vectordb`, `search_similar_chunks`, `format_chunk_results` and
`inspect_metadata`.  Pure functions of the source become Lean functions;
the external collaborators (OpenAI embeddings, the LangChain/FAISS vector
store) are modelled explicitly, with their possible failures represented
by `Except` values and an `embed_ok` success flag.  Logging side effects
(`print`) are represented as an explicit list of emitted log lines tagged
with the output channel they go to.
-/

namespace VectorSearch

/-- A retrieved passage (LangChain `Document`): page content plus a
metadata mapping, modelled as an association list from field name to
rendered value. -/
structure Document where
  page_content : String
  metadata : List (String × String)
deriving DecidableEq

/-- Modelled from the spec: the persisted FAISS vector store is an external
collaborator (its code is not part of this repository).  Per the spec it
owns the indexed corpus and a similarity scoring of passages against a
query (cosine similarity over embedding vectors); `embed_ok` says whether
embedding/lookup for a given query succeeds, modelling network or lookup
failures of the collaborator. -/
structure FAISSStore where
  corpus : List Document
  score : String → Document → ℚ
  embed_ok : String → Bool

/-- Exact-equality metadata filter check: every field named in the filter
mapping must be present in the document metadata with the given value. -/
def matchesFilter (fd : List (String × String)) (d : Document) : Bool :=
  fd.all fun kv => d.metadata.lookup kv.1 = some kv.2

/-- Ranking relation used by the store: non-increasing similarity score
for a fixed query. -/
def scoreGE (vs : FAISSStore) (q : String) (a b : Document) : Prop :=
  vs.score q b ≤ vs.score q a

instance (vs : FAISSStore) (q : String) : DecidableRel (scoreGE vs q) :=
  fun a b => inferInstanceAs (Decidable (vs.score q b ≤ vs.score q a))

/-- Modelled from the spec: `FAISS.similarity_search` of the LangChain
collaborator (not part of this repository).  Per spec section 4.2 it embeds
the query, restricts to passages whose metadata satisfies exact equality on
every filter field (when a filter is given), ranks by similarity descending
and returns the top `k`; any embedding/lookup error surfaces as a raised
exception, modelled by `Except.error`. -/
def similarity_search (vs : FAISSStore) (query : String) (k : Nat)
    (filt : Option (List (String × String))) : Except String (List Document) :=
  if vs.embed_ok query then
    let eligible := match filt with
      | none => vs.corpus
      | some fd => vs.corpus.filter (matchesFilter fd)
    Except.ok ((List.insertionSort (scoreGE vs query) eligible).take k)
  else
    Except.error "embedding failed"

/-- Python truthiness of the optional `filter_dict` argument: `None` and
the empty dict are falsy. -/
def dictTruthy (fd : Option (List (String × String))) : Bool :=
  match fd with
  | some (_ :: _) => true
  | _ => false

/-- An output channel of a diagnostic message. -/
inductive Channel where
  | stdout
  | stderr
deriving DecidableEq

/-- A log line: the channel it is printed to, and its text. -/
abbrev LogLine := Channel × String

/-- The function `search_similar_chunks` with its logging side effect made explicit:
returns the documents together with the list of printed log lines.
Mirrors the source: if `filter_dict` is truthy the filter is passed to the
underlying `similarity_search`, otherwise the unfiltered call is made; any
exception is caught, an error line is printed (Python `print`, standard
output) and the empty list is returned. -/
def search_similar_chunks_log (vs : FAISSStore) (query : String) (k : Nat)
    (filter_dict : Option (List (String × String))) :
    List Document × List LogLine :=
  let res :=
    if dictTruthy filter_dict then
      similarity_search vs query k filter_dict
    else
      similarity_search vs query k none
  match res with
  | Except.ok docs => (docs, [])
  | Except.error e =>
      ([], [(Channel.stdout, "Error during similarity search: " ++ e)])

/-- The function `search_similar_chunks` as seen by the caller: the returned list of
documents (the logging side effect projected away). -/
def search_similar_chunks (vs : FAISSStore) (query : String) (k : Nat)
    (filter_dict : Option (List (String × String))) : List Document :=
  (search_similar_chunks_log vs query k filter_dict).1

/-- Modelled from the spec: the loading collaborators (`OpenAIEmbeddings`
construction and `FAISS.load_local`, not part of this repository) are
abstracted as one fallible operation from a path and a model name to a
store; a deserialization or configuration error is an exception, modelled
as `Except.error`. -/
structure LoadEnv where
  load_local : String → String → Except String FAISSStore

/-- Loader `load_vectordb`: tries to build the embedding function and deserialize
the on-disk index; on success returns the store and prints nothing, on any
exception prints an error line (Python `print`, standard output) and
returns `none`. -/
def load_vectordb (env : LoadEnv) (load_path : String) (model : String) :
    Option FAISSStore × List LogLine :=
  match env.load_local load_path model with
  | Except.ok vs => (some vs, [])
  | Except.error e =>
      (none, [(Channel.stdout, "Error loading vector database: " ++ e)])

/-- The seven default metadata fields of `format_chunk_results`. -/
def default_fields : List String :=
  ["page_type", "primary_category", "subcategory", "title",
   "chunk_index", "total_chunks", "source"]

/-- The `metadata_fields or default_fields` expression of the source: Python truthiness,
so both `None` and the empty list are replaced by the defaults. -/
def effectiveFields (metadata_fields : Option (List String)) : List String :=
  match metadata_fields with
  | some (f :: fs) => f :: fs
  | _ => default_fields

/-- Python `str.title()` restricted to the ASCII field names used here:
a letter is uppercased when the previous character is not a letter and
lowercased otherwise. -/
def pyTitle (s : String) : String :=
  String.mk (go false s.data)
where
  go (prevAlpha : Bool) : List Char → List Char
    | [] => []
    | c :: cs =>
        (if prevAlpha then c.toLower else c.toUpper) :: go c.isAlpha cs

/-- One rendered metadata line:
`f"{field.replace('_', ' ').title()}: {value}"`. -/
def renderLine (field value : String) : String :=
  pyTitle (field.replace "_" " ") ++ ": " ++ value

/-- The `metadata_lines` accumulation loop of `format_chunk_results`:
for each requested field, if it is present in the document metadata a
rendered line is appended, otherwise the field is skipped. -/
def metadataLines (doc : Document) (fields : List String) : List String :=
  fields.foldl
    (fun acc field =>
      match doc.metadata.lookup field with
      | some value => acc ++ [renderLine field value]
      | none => acc)
    []

/-- Python `content[:n]`: the first `n` characters of the string. -/
def pySlice (content : String) (n : Nat) : String :=
  String.mk (content.data.take n)

/-- The content rendering of `format_chunk_results`: the source guard is
`if max_content_length and len(content) > max_content_length`, so a
`None` (and, by Python truthiness, a zero) limit leaves the content
untouched, and otherwise content longer than the limit is cut to the
first `n` characters followed by the ellipsis marker. -/
def renderContent (content : String) (max_content_length : Option Nat) : String :=
  match max_content_length with
  | none => content
  | some n =>
      if 0 < n ∧ n < content.length then pySlice content n ++ "..."
      else content

/-- The ten-dash separator `"-" * 10` of the source. -/
def dashes : String := "----------"

/-- Python `enumerate(documents, i)`. -/
def pyEnumerate (i : Nat) : List α → List (Nat × α)
  | [] => []
  | x :: xs => (i, x) :: pyEnumerate (i + 1) xs

/-- The output parts appended for one document inside the loop of
`format_chunk_results`: chunk header, separator, joined metadata lines,
and — when `include_content` — the content block. -/
def docParts (fields : List String) (include_content : Bool)
    (max_content_length : Option Nat) (i : Nat) (doc : Document) :
    List String :=
  ["\nChunk " ++ toString i ++ ":", dashes,
   "\n".intercalate (metadataLines doc fields)] ++
  (if include_content then
     ["\nContent:", dashes,
      renderContent doc.page_content max_content_length, dashes]
   else [])

/-- The full `output_parts` list built by `format_chunk_results` for a
non-empty document list, before the final join. -/
def format_chunk_results_parts (documents : List Document)
    (metadata_fields : Option (List String)) (include_content : Bool)
    (max_content_length : Option Nat) : List String :=
  ("Found " ++ toString documents.length ++ " relevant chunks:\n") ::
    (pyEnumerate 1 documents).flatMap
      (fun p =>
        docParts (effectiveFields metadata_fields) include_content
          max_content_length p.1 p.2)

/-- Formatter `format_chunk_results`: the sentinel string for an empty input,
otherwise the parts joined with newlines. -/
def format_chunk_results (documents : List Document)
    (metadata_fields : Option (List String)) (include_content : Bool)
    (max_content_length : Option Nat) : String :=
  match documents with
  | [] => "No results found."
  | _ =>
      "\n".intercalate
        (format_chunk_results_parts documents metadata_fields
          include_content max_content_length)

/-- Python `set.add` on a set modelled as a duplicate-free list: the value
is appended only when not already present. -/
def addValue (vals : List String) (v : String) : List String :=
  if v ∈ vals then vals else vals ++ [v]

/-- The body of the aggregation loop of `inspect_metadata` for one
metadata entry: create the key with an empty set when absent, then add
the value to the key's set.  The summary dict is modelled as an
insertion-ordered association list. -/
def addToSummary (s : List (String × List String)) (k v : String) :
    List (String × List String) :=
  match s with
  | [] => [(k, [v])]
  | (k', vs) :: rest =>
      if k' = k then (k', addValue vs v) :: rest
      else (k', vs) :: addToSummary rest k v

/-- Aggregation over one document's metadata items. -/
def summarizeDoc (s : List (String × List String)) (doc : Document) :
    List (String × List String) :=
  doc.metadata.foldl (fun s kv => addToSummary s kv.1 kv.2) s

/-- The aggregation of `inspect_metadata` over the sampled documents. -/
def aggregateMetadata (docs : List Document) : List (String × List String) :=
  docs.foldl summarizeDoc []

/-- Inspector `inspect_metadata`: performs one similarity search with the sample
query and sample size and aggregates every metadata field with its
distinct observed values.  The source has no exception handler, so an
error of the underlying search propagates to the caller
(`Except.error`). -/
def inspect_metadata (vs : FAISSStore) (sample_query : String)
    (sample_size : Nat) : Except String (List (String × List String)) :=
  match similarity_search vs sample_query sample_size none with
  | Except.error e => Except.error e
  | Except.ok docs => Except.ok (aggregateMetadata docs)

/-! ## Concrete fixtures used by witnesses and counterexamples -/

/-- A sample passage with category and title metadata. -/
def dA : Document := ⟨"alpha content", [("cat", "x"), ("title", "A")]⟩

/-- A sample passage in a different category. -/
def dB : Document := ⟨"bb", [("cat", "y"), ("title", "B")]⟩

/-- A sample passage sharing `dA`'s category and missing the title. -/
def dC : Document := ⟨"ccccc", [("cat", "x")]⟩

/-- A passage with two characters of content and no metadata. -/
def dShort : Document := ⟨"ab", []⟩

/-- A store whose embedding always succeeds; similarity is scored by
content length, so ranking is decidable on concrete inputs. -/
def vsW : FAISSStore :=
  ⟨[dA, dB, dC], fun _ d => (d.page_content.length : ℚ), fun _ => true⟩

/-- A store whose embedding call always fails. -/
def vsErr : FAISSStore :=
  ⟨[dA], fun _ d => (d.page_content.length : ℚ), fun _ => false⟩

/-- A loading environment in which deserialization always fails, as with a
nonexistent path. -/
def envErr : LoadEnv :=
  ⟨fun _ _ => Except.error "No such file or directory"⟩

/-! ## Helper lemmas -/

/-- The ranking relation is total. -/
instance (vs : FAISSStore) (q : String) : IsTotal Document (scoreGE vs q) :=
  ⟨fun a b => le_total (vs.score q b) (vs.score q a)⟩

/-- The ranking relation is transitive. -/
instance (vs : FAISSStore) (q : String) : IsTrans Document (scoreGE vs q) :=
  ⟨fun _ _ _ hab hbc => le_trans hbc hab⟩

/-- A passing metadata filter check gives exact equality on every filter
field. -/
theorem matchesFilter_spec (fd : List (String × String)) (d : Document)
    (h : matchesFilter fd d = true) :
    ∀ kv ∈ fd, d.metadata.lookup kv.1 = some kv.2 := by
  intro kv hkv
  have hall := List.all_eq_true.mp h kv hkv
  exact of_decide_eq_true hall

/-- Every eligible document is drawn from the corpus. -/
theorem mem_corpus_of_eligible (vs : FAISSStore)
    (filt : Option (List (String × String))) (d : Document)
    (h : d ∈ (match filt with
              | none => vs.corpus
              | some fd => vs.corpus.filter (matchesFilter fd))) :
    d ∈ vs.corpus := by
  cases filt with
  | none => exact h
  | some fd => exact List.mem_of_mem_filter h

/-- A successful underlying similarity search returns at most `k`
documents, each from the corpus, sorted by non-increasing score. -/
theorem similarity_search_ok_spec (vs : FAISSStore) (q : String) (k : Nat)
    (filt : Option (List (String × String))) (docs : List Document)
    (h : similarity_search vs q k filt = Except.ok docs) :
    docs.length ≤ k ∧ (∀ d ∈ docs, d ∈ vs.corpus) ∧
      List.Pairwise (scoreGE vs q) docs := by
  unfold similarity_search at h
  by_cases he : vs.embed_ok q
  · rw [if_pos he] at h
    have hdocs := Except.ok.inj h
    subst hdocs
    refine ⟨List.length_take_le _ _, ?_, ?_⟩
    · intro d hd
      have hd' := List.mem_of_mem_take hd
      rw [List.mem_insertionSort] at hd'
      exact mem_corpus_of_eligible vs filt d hd'
    · exact (List.sorted_insertionSort (scoreGE vs q) _).sublist
        (List.take_sublist _ _)
  · rw [if_neg he] at h
    exact absurd h (by simp)

/-- A successful underlying similarity search with a filter returns only
documents passing the filter check. -/
theorem similarity_search_ok_filtered (vs : FAISSStore) (q : String)
    (k : Nat) (fd : List (String × String)) (docs : List Document)
    (h : similarity_search vs q k (some fd) = Except.ok docs) :
    ∀ d ∈ docs, matchesFilter fd d = true := by
  unfold similarity_search at h
  by_cases he : vs.embed_ok q
  · rw [if_pos he] at h
    have hdocs := Except.ok.inj h
    subst hdocs
    intro d hd
    have hd' := List.mem_of_mem_take hd
    rw [List.mem_insertionSort] at hd'
    exact List.of_mem_filter hd'
  · rw [if_neg he] at h
    exact absurd h (by simp)

/-- The result of `search_similar_chunks` is either the caught-error empty
list or the payload of a successful underlying search. -/
theorem search_similar_chunks_cases (vs : FAISSStore) (q : String) (k : Nat)
    (fd : Option (List (String × String))) :
    search_similar_chunks vs q k fd = [] ∨
      ∃ filt, similarity_search vs q k filt
          = Except.ok (search_similar_chunks vs q k fd) := by
  unfold search_similar_chunks search_similar_chunks_log
  by_cases hf : dictTruthy fd
  · rw [if_pos hf]
    cases hres : similarity_search vs q k fd with
    | ok docs => right; exact ⟨fd, hres⟩
    | error e => left; rfl
  · rw [if_neg hf]
    cases hres : similarity_search vs q k none with
    | ok docs => right; exact ⟨none, hres⟩
    | error e => left; rfl

/-- Every member of a list appears, with some index, in its Python-style
enumeration. -/
theorem pyEnumerate_mem_of_mem {α : Type} (d : α) :
    ∀ (l : List α) (i : Nat), d ∈ l → ∃ j, (j, d) ∈ pyEnumerate i l := by
  intro l
  induction l with
  | nil => intro i hd; exact absurd hd (List.not_mem_nil d)
  | cons x xs ih =>
      intro i hd
      rcases List.mem_cons.mp hd with heq | htl
      · exact ⟨i, by rw [heq]; exact List.mem_cons_self _ _⟩
      · rcases ih (i + 1) htl with ⟨j, hj⟩
        exact ⟨j, List.mem_cons_of_mem _ hj⟩

/-- The rendered content of every listed document is one of the output
parts of `format_chunk_results` when content is included. -/
theorem mem_parts_renderContent (docs : List Document)
    (mf : Option (List String)) (ml : Option Nat) (d : Document)
    (hd : d ∈ docs) :
    renderContent d.page_content ml
      ∈ format_chunk_results_parts docs mf true ml := by
  rcases pyEnumerate_mem_of_mem d docs 1 hd with ⟨j, hj⟩
  unfold format_chunk_results_parts
  refine List.mem_cons_of_mem _ ?_
  rw [List.mem_flatMap]
  refine ⟨(j, d), hj, ?_⟩
  simp [docParts]

/-! ## Claim theorems -/

/-- C1: for every valid index, query string, and positive `k`,
`search_similar_chunks` returns at most `k` passages, each drawn
unmodified from the indexed corpus, ordered by non-increasing similarity
score.  The caught-error path returns the empty list, for which the
property holds trivially. -/
theorem search_similar_chunks_topk_sorted (vs : FAISSStore) (q : String)
    (k : Nat) (fd : Option (List (String × String))) (hk : 0 < k) :
    (search_similar_chunks vs q k fd).length ≤ k ∧
      (∀ d ∈ search_similar_chunks vs q k fd, d ∈ vs.corpus) ∧
      List.Pairwise (fun a b => vs.score q b ≤ vs.score q a)
        (search_similar_chunks vs q k fd) := by
  rcases search_similar_chunks_cases vs q k fd with hempty | ⟨filt, hok⟩
  · rw [hempty]
    exact ⟨Nat.zero_le _, fun d hd => absurd hd (List.not_mem_nil d),
      List.Pairwise.nil⟩
  · exact similarity_search_ok_spec vs q k filt _ hok

/-- Witness for C1 at a concrete store, query and `k = 2`. -/
theorem search_similar_chunks_topk_sorted_witness :
    0 < 2 ∧
      ((search_similar_chunks vsW "q" 2 none).length ≤ 2 ∧
        (∀ d ∈ search_similar_chunks vsW "q" 2 none, d ∈ vsW.corpus) ∧
        List.Pairwise (fun a b => vsW.score "q" b ≤ vsW.score "q" a)
          (search_similar_chunks vsW "q" 2 none)) :=
  ⟨by decide, search_similar_chunks_topk_sorted vsW "q" 2 none (by decide)⟩

/-- C2: when a filter mapping is passed to `search_similar_chunks`, every
returned passage satisfies exact equality between its metadata value and
the filter's value on every field named in the filter.  An empty filter
mapping is falsy and imposes no constraint, and then the property is
vacuous. -/
theorem search_similar_chunks_filter_exact (vs : FAISSStore) (q : String)
    (k : Nat) (fd : List (String × String)) :
    ∀ d ∈ search_similar_chunks vs q k (some fd),
      ∀ kv ∈ fd, d.metadata.lookup kv.1 = some kv.2 := by
  cases fd with
  | nil => intro d _ kv hkv; exact absurd hkv (List.not_mem_nil kv)
  | cons f fs =>
      intro d hd kv hkv
      have hmatch : matchesFilter (f :: fs) d = true := by
        unfold search_similar_chunks search_similar_chunks_log at hd
        rw [show dictTruthy (some (f :: fs)) = true from rfl, if_pos rfl] at hd
        cases hres : similarity_search vs q k (some (f :: fs)) with
        | ok docs =>
            rw [hres] at hd
            exact similarity_search_ok_filtered vs q k (f :: fs) docs hres d hd
        | error e =>
            rw [hres] at hd
            exact absurd hd (List.not_mem_nil d)
      exact matchesFilter_spec (f :: fs) d hmatch kv hkv

/-- Witness for C2: a concrete filtered search returns `dA`, whose
metadata satisfies the filter exactly. -/
theorem search_similar_chunks_filter_exact_witness :
    dA.metadata.lookup "cat" = some "x" :=
  search_similar_chunks_filter_exact vsW "q" 5 [("cat", "x")] dA (by decide)
    ("cat", "x") (by decide)

/-- C3: any error raised during embedding or index lookup inside
`search_similar_chunks` is caught; an error line is printed and the empty
sequence is returned.  The embedding is total, so no exception ever
reaches the caller. -/
theorem search_similar_chunks_error_caught (vs : FAISSStore) (q : String)
    (k : Nat) (fd : Option (List (String × String)))
    (h : vs.embed_ok q = false) :
    search_similar_chunks_log vs q k fd
        = ([], [(Channel.stdout,
                 "Error during similarity search: embedding failed")]) ∧
      search_similar_chunks vs q k fd = [] := by
  have hlog : search_similar_chunks_log vs q k fd
      = ([], [(Channel.stdout,
               "Error during similarity search: embedding failed")]) := by
    unfold search_similar_chunks_log similarity_search
    rw [h]
    by_cases hf : dictTruthy fd
    · rw [if_pos hf]; rfl
    · rw [if_neg hf]; rfl
  exact ⟨hlog, by rw [search_similar_chunks, hlog]⟩

/-- Witness for C3 at a store whose embedding always fails. -/
theorem search_similar_chunks_error_caught_witness :
    search_similar_chunks_log vsErr "q" 3 (some [("cat", "x")])
        = ([], [(Channel.stdout,
                 "Error during similarity search: embedding failed")]) ∧
      search_similar_chunks vsErr "q" 3 (some [("cat", "x")]) = [] :=
  search_similar_chunks_error_caught vsErr "q" 3 (some [("cat", "x")]) rfl

/-- C10: an empty `filter_dict` is falsy in the source's
`if filter_dict:` test, so it is treated exactly as no filter: the same
unfiltered call is made to the underlying index, and results and log
output coincide with the `None` case. -/
theorem search_similar_chunks_empty_filter (vs : FAISSStore) (q : String)
    (k : Nat) :
    search_similar_chunks_log vs q k (some [])
        = search_similar_chunks_log vs q k none ∧
      search_similar_chunks vs q k (some [])
        = search_similar_chunks vs q k none :=
  ⟨rfl, rfl⟩

/-- C4 counterexample: on a load failure the source calls Python `print`,
which writes to standard output, not standard error; the error line of a
failing load is emitted on stdout, refuting the claim that the error is
logged to standard error output. -/
theorem load_vectordb_stderr_counterexample :
    (load_vectordb envErr "/missing/path" "text-embedding-3-small").1 = none ∧
      (load_vectordb envErr "/missing/path" "text-embedding-3-small").2 ≠ [] ∧
      ∀ line ∈ (load_vectordb envErr "/missing/path" "text-embedding-3-small").2,
        line.1 = Channel.stdout ∧ line.1 ≠ Channel.stderr :=
  ⟨rfl, by decide, by decide⟩

/-- C4 amended: any deserialization or configuration error inside
`load_vectordb` is caught, logged to standard output, and the function
returns an absent result rather than raising; in particular a nonexistent
path yields an absent handle without an exception. -/
theorem load_vectordb_error_caught (env : LoadEnv) (path model e : String)
    (h : env.load_local path model = Except.error e) :
    load_vectordb env path model
      = (none, [(Channel.stdout, "Error loading vector database: " ++ e)]) := by
  unfold load_vectordb
  rw [h]

/-- Witness for the amended C4 at a failing load environment. -/
theorem load_vectordb_error_caught_witness :
    load_vectordb envErr "/missing/path" "text-embedding-3-small"
      = (none, [(Channel.stdout,
                 "Error loading vector database: "
                   ++ "No such file or directory")]) :=
  load_vectordb_error_caught envErr "/missing/path" "text-embedding-3-small"
    "No such file or directory" rfl

/-- C5 counterexample: the truncation guard is
`if max_content_length and len(content) > max_content_length`, and the
limit `0` is falsy in Python, so a passage whose content exceeds a set
limit of `0` is emitted in full with no ellipsis — identical to the
unset-limit output — refuting the claim for `N = 0`. -/
theorem format_truncation_zero_counterexample :
    0 < dShort.page_content.length ∧
      format_chunk_results [dShort] none true (some 0)
        = format_chunk_results [dShort] none true none ∧
      renderContent dShort.page_content (some 0) = dShort.page_content ∧
      renderContent dShort.page_content (some 0)
        ≠ pySlice dShort.page_content 0 ++ "..." :=
  ⟨by decide, rfl, rfl, by decide⟩

/-- C5 amended: for every passage and set positive `max_content_length`
`n`, the content block that `format_chunk_results` emits for that passage
is among its output parts; when the content exceeds `n` it is the first
`n` characters (at most `n`) followed by the ellipsis marker, and when the
content does not exceed `n` — or the limit is unset — the content appears
in full, unaltered. -/
theorem format_truncation_bound (docs : List Document)
    (mf : Option (List String)) (d : Document) (n : Nat)
    (hd : d ∈ docs) (hn : 0 < n) :
    renderContent d.page_content (some n)
        ∈ format_chunk_results_parts docs mf true (some n) ∧
      (n < d.page_content.length →
        renderContent d.page_content (some n)
            = pySlice d.page_content n ++ "..." ∧
          (pySlice d.page_content n).length ≤ n) ∧
      (d.page_content.length ≤ n →
        renderContent d.page_content (some n) = d.page_content) ∧
      renderContent d.page_content none = d.page_content := by
  refine ⟨mem_parts_renderContent docs mf (some n) d hd, ?_, ?_, rfl⟩
  · intro hlt
    constructor
    · show (if 0 < n ∧ n < d.page_content.length
          then pySlice d.page_content n ++ "..." else d.page_content)
        = pySlice d.page_content n ++ "..."
      rw [if_pos ⟨hn, hlt⟩]
    · show (d.page_content.data.take n).length ≤ n
      exact List.length_take_le n d.page_content.data
  · intro hle
    show (if 0 < n ∧ n < d.page_content.length
        then pySlice d.page_content n ++ "..." else d.page_content)
      = d.page_content
    rw [if_neg]
    rintro ⟨-, hlt⟩
    exact absurd hle (Nat.not_le_of_lt hlt)

/-- Witness for the amended C5: content of length 13 truncated at 5. -/
theorem format_truncation_bound_witness :
    renderContent dA.page_content (some 5)
        ∈ format_chunk_results_parts [dA] none true (some 5) ∧
      (renderContent dA.page_content (some 5)
          = pySlice dA.page_content 5 ++ "..." ∧
        (pySlice dA.page_content 5).length ≤ 5) :=
  ⟨(format_truncation_bound [dA] none dA 5 (by decide) (by decide)).1,
   (format_truncation_bound [dA] none dA 5 (by decide) (by decide)).2.1
     (by decide)⟩

/-- C6: `format_chunk_results` applied to an empty passage sequence
returns the fixed sentinel string, for every combination of the other
parameters. -/
theorem format_chunk_results_empty_sentinel
    (metadata_fields : Option (List String)) (include_content : Bool)
    (max_content_length : Option Nat) :
    format_chunk_results [] metadata_fields include_content
        max_content_length = "No results found." :=
  rfl

/-- C9: an empty `metadata_fields` list is falsy in the source's
`metadata_fields or default_fields`, so for a non-empty document list the
seven default metadata fields are rendered, exactly as if the defaults
had been passed. -/
theorem format_chunk_results_empty_fields_defaults (docs : List Document)
    (include_content : Bool) (max_content_length : Option Nat)
    (h : docs ≠ []) :
    effectiveFields (some []) = default_fields ∧
      format_chunk_results docs (some []) include_content
          max_content_length
        = format_chunk_results docs (some default_fields) include_content
            max_content_length := by
  refine ⟨rfl, ?_⟩
  cases docs with
  | nil => exact absurd rfl h
  | cons d ds => rfl

/-- Witness for C9 at a one-document list. -/
theorem format_chunk_results_empty_fields_defaults_witness :
    effectiveFields (some []) = default_fields ∧
      format_chunk_results [dA] (some []) true none
        = format_chunk_results [dA] (some default_fields) true none :=
  format_chunk_results_empty_fields_defaults [dA] true none (by decide)

/-- The accumulation loop of `metadata_lines`, started from any
accumulator, appends exactly one rendered line per present field, in
field order. -/
theorem metadataLines_foldl_eq (doc : Document) :
    ∀ (fields acc : List String),
      fields.foldl
          (fun acc field =>
            match doc.metadata.lookup field with
            | some value => acc ++ [renderLine field value]
            | none => acc)
          acc
        = acc ++ fields.filterMap
            (fun f => (doc.metadata.lookup f).map (renderLine f)) := by
  intro fields
  induction fields with
  | nil => intro acc; simp
  | cons f fs ih =>
      intro acc
      cases hf : doc.metadata.lookup f with
      | none => simp [hf, ih]
      | some v => simp [hf, ih]

/-- The joined metadata block of every listed document is one of the
output parts of `format_chunk_results`. -/
theorem mem_parts_metadataLines (docs : List Document)
    (mf : Option (List String)) (inc : Bool) (ml : Option Nat)
    (d : Document) (hd : d ∈ docs) :
    "\n".intercalate (metadataLines d (effectiveFields mf))
      ∈ format_chunk_results_parts docs mf inc ml := by
  rcases pyEnumerate_mem_of_mem d docs 1 hd with ⟨j, hj⟩
  unfold format_chunk_results_parts
  refine List.mem_cons_of_mem _ ?_
  rw [List.mem_flatMap]
  refine ⟨(j, d), hj, ?_⟩
  simp [docParts]

/-- C7: `format_chunk_results` renders, for each passage, one metadata
line per requested field present in that passage's metadata, in the
requested order; a field absent from the passage is silently skipped
without affecting the remaining fields' lines; and the joined block of
these lines is emitted among the output parts for every listed
passage. -/
theorem format_chunk_results_metadata_lines (doc : Document)
    (fields : List String) :
    metadataLines doc fields
        = fields.filterMap
            (fun f => (doc.metadata.lookup f).map (renderLine f)) ∧
      (∀ (l1 : List String) (f : String) (l2 : List String),
        doc.metadata.lookup f = none →
          metadataLines doc (l1 ++ f :: l2) = metadataLines doc (l1 ++ l2)) ∧
      ∀ (docs : List Document) (mf : Option (List String)) (inc : Bool)
          (ml : Option Nat), doc ∈ docs →
        "\n".intercalate (metadataLines doc (effectiveFields mf))
          ∈ format_chunk_results_parts docs mf inc ml := by
  refine ⟨?_, ?_, ?_⟩
  · have h := metadataLines_foldl_eq doc fields []
    simpa [metadataLines] using h
  · intro l1 f l2 hf
    unfold metadataLines
    rw [metadataLines_foldl_eq, metadataLines_foldl_eq]
    simp [List.filterMap_append, hf]
  · intro docs mf inc ml hd
    exact mem_parts_metadataLines docs mf inc ml doc hd

/-- Witness for C7: the field absent from `dC` is skipped and the two
present fields keep their order. -/
theorem format_chunk_results_metadata_lines_witness :
    metadataLines dC (["cat"] ++ "title" :: []) = metadataLines dC (["cat"] ++ []) :=
  (format_chunk_results_metadata_lines dC []).2.1 ["cat"] "title" [] rfl

/-- Membership in the metadata summary: field `k` is recorded with value
`v` among its observed values. -/
def memSummary (s : List (String × List String)) (k v : String) : Prop :=
  ∃ vals, s.lookup k = some vals ∧ v ∈ vals

/-- Adding a value to a set puts it in the set. -/
theorem mem_addValue_self (vals : List String) (v : String) :
    v ∈ addValue vals v := by
  unfold addValue
  by_cases h : v ∈ vals
  · rwa [if_pos h]
  · rw [if_neg h]
    exact List.mem_append_right _ (List.mem_singleton.mpr rfl)

/-- Adding a value to a set keeps every previous member. -/
theorem mem_addValue_of_mem (vals : List String) (v w : String)
    (h : w ∈ vals) : w ∈ addValue vals v := by
  unfold addValue
  by_cases hv : v ∈ vals
  · rwa [if_pos hv]
  · rw [if_neg hv]
    exact List.mem_append_left _ h

/-- Looking up a key at the head of an association list. -/
theorem lookup_cons_eq {β : Type} (k : String) (b : β)
    (rest : List (String × β)) :
    List.lookup k ((k, b) :: rest) = some b := by
  simp [List.lookup]

/-- Looking up a key past a head with a different key. -/
theorem lookup_cons_ne {β : Type} (k0 key : String) (h : key ≠ k0) (b : β)
    (rest : List (String × β)) :
    List.lookup key ((k0, b) :: rest) = List.lookup key rest := by
  have hb : (key == k0) = false := beq_eq_false_iff_ne.mpr h
  simp [List.lookup, hb]

/-- After recording `(k, v)` in the summary, `v` is among the observed
values of `k`. -/
theorem memSummary_addToSummary_self :
    ∀ (s : List (String × List String)) (k v : String),
      memSummary (addToSummary s k v) k v := by
  intro s
  induction s with
  | nil =>
      intro k v
      exact ⟨[v], lookup_cons_eq k [v] [], List.mem_singleton.mpr rfl⟩
  | cons p rest ih =>
      intro k v
      obtain ⟨k0, vs0⟩ := p
      by_cases hke : k0 = k
      · refine ⟨addValue vs0 v, ?_, mem_addValue_self vs0 v⟩
        show List.lookup k
            (if k0 = k then (k0, addValue vs0 v) :: rest
             else (k0, vs0) :: addToSummary rest k v) = some (addValue vs0 v)
        rw [if_pos hke, hke, lookup_cons_eq]
      · rcases ih k v with ⟨vals, hl, hm⟩
        refine ⟨vals, ?_, hm⟩
        show List.lookup k
            (if k0 = k then (k0, addValue vs0 v) :: rest
             else (k0, vs0) :: addToSummary rest k v) = some vals
        rw [if_neg hke, lookup_cons_ne k0 k (fun h => hke h.symm)]
        exact hl

/-- Recording a new pair in the summary keeps every previously observed
pair. -/
theorem memSummary_addToSummary_mono :
    ∀ (s : List (String × List String)) (k v k' v' : String),
      memSummary s k' v' → memSummary (addToSummary s k v) k' v' := by
  intro s
  induction s with
  | nil =>
      intro k v k' v' h
      rcases h with ⟨vals, hl, _⟩
      simp [List.lookup] at hl
  | cons p rest ih =>
      intro k v k' v' h
      obtain ⟨k0, vs0⟩ := p
      rcases h with ⟨vals, hl, hm⟩
      show memSummary
          (if k0 = k then (k0, addValue vs0 v) :: rest
           else (k0, vs0) :: addToSummary rest k v) k' v'
      by_cases hk' : k' = k0
      · rw [hk', lookup_cons_eq] at hl
        have hv : vs0 = vals := Option.some.inj hl
        by_cases hke : k0 = k
        · rw [if_pos hke]
          exact ⟨addValue vs0 v, by rw [hk', lookup_cons_eq],
            mem_addValue_of_mem vs0 v v' (hv ▸ hm)⟩
        · rw [if_neg hke]
          exact ⟨vals, by rw [hk', lookup_cons_eq, hv], hm⟩
      · rw [lookup_cons_ne k0 k' hk'] at hl
        by_cases hke : k0 = k
        · rw [if_pos hke]
          exact ⟨vals, by rw [lookup_cons_ne k0 k' hk']; exact hl, hm⟩
        · rw [if_neg hke]
          rcases ih k v k' v' ⟨vals, hl, hm⟩ with ⟨vals', hl', hm'⟩
          exact ⟨vals', by rw [lookup_cons_ne k0 k' hk']; exact hl', hm'⟩

/-- Folding further metadata entries into a summary keeps every observed
pair. -/
theorem memSummary_foldl_entries_mono :
    ∀ (kvs : List (String × String)) (s : List (String × List String))
      (k v : String), memSummary s k v →
        memSummary (kvs.foldl (fun s kv => addToSummary s kv.1 kv.2) s) k v := by
  intro kvs
  induction kvs with
  | nil => intro s k v h; exact h
  | cons x xs ih =>
      intro s k v h
      exact ih _ k v (memSummary_addToSummary_mono s x.1 x.2 k v h)

/-- Every metadata entry folded into a summary is observed in the
result. -/
theorem memSummary_foldl_entries_mem :
    ∀ (kvs : List (String × String)) (s : List (String × List String))
      (kv : String × String), kv ∈ kvs →
        memSummary (kvs.foldl (fun s kv => addToSummary s kv.1 kv.2) s)
          kv.1 kv.2 := by
  intro kvs
  induction kvs with
  | nil => intro s kv h; exact absurd h (List.not_mem_nil kv)
  | cons x xs ih =>
      intro s kv h
      rcases List.mem_cons.mp h with heq | htl
      · subst heq
        exact memSummary_foldl_entries_mono xs _ kv.1 kv.2
          (memSummary_addToSummary_self s kv.1 kv.2)
      · exact ih _ kv htl

/-- Folding further documents into a summary keeps every observed pair. -/
theorem memSummary_foldl_docs_mono :
    ∀ (docs : List Document) (s : List (String × List String))
      (k v : String), memSummary s k v →
        memSummary (docs.foldl summarizeDoc s) k v := by
  intro docs
  induction docs with
  | nil => intro s k v h; exact h
  | cons x xs ih =>
      intro s k v h
      exact ih _ k v (memSummary_foldl_entries_mono x.metadata s k v h)

/-- Every metadata entry of every folded document is observed in the
resulting summary. -/
theorem memSummary_foldl_docs_mem :
    ∀ (docs : List Document) (s : List (String × List String))
      (d : Document) (kv : String × String), d ∈ docs → kv ∈ d.metadata →
        memSummary (docs.foldl summarizeDoc s) kv.1 kv.2 := by
  intro docs
  induction docs with
  | nil => intro s d kv hd _; exact absurd hd (List.not_mem_nil d)
  | cons x xs ih =>
      intro s d kv hd hkv
      rcases List.mem_cons.mp hd with heq | htl
      · subst heq
        exact memSummary_foldl_docs_mono xs _ kv.1 kv.2
          (memSummary_foldl_entries_mem d.metadata s kv hkv)
      · exact ih _ d kv htl hkv

/-- The aggregation of `inspect_metadata` records every metadata field of
every sampled document, with each observed value among the field's
distinct values. -/
theorem aggregateMetadata_complete (docs : List Document) (d : Document)
    (kv : String × String) (hd : d ∈ docs) (hkv : kv ∈ d.metadata) :
    memSummary (aggregateMetadata docs) kv.1 kv.2 :=
  memSummary_foldl_docs_mem docs [] d kv hd hkv

/-- C8 counterexample: `inspect_metadata` has no exception handler, so an
error of its single sample similarity search propagates to the caller
instead of degrading to an empty/absent result: at a store whose
embedding fails, the call surfaces the error itself. -/
theorem inspect_metadata_propagates_counterexample :
    inspect_metadata vsErr "sample" 100 = Except.error "embedding failed" :=
  rfl

/-- C8 amended: an error during `inspect_metadata`'s single sample
similarity search propagates to the caller (the source has no handler
around it); when the sample search succeeds, the resulting mapping
contains every metadata field of every returned passage, with each
observed value among the field's distinct values. -/
theorem inspect_metadata_spec (vs : FAISSStore) (q : String) (n : Nat) :
    (vs.embed_ok q = false →
      inspect_metadata vs q n = Except.error "embedding failed") ∧
      ∀ docs : List Document, similarity_search vs q n none = Except.ok docs →
        inspect_metadata vs q n = Except.ok (aggregateMetadata docs) ∧
          ∀ d ∈ docs, ∀ kv ∈ d.metadata,
            ∃ vals, (aggregateMetadata docs).lookup kv.1 = some vals ∧
              kv.2 ∈ vals := by
  constructor
  · intro hq
    simp [inspect_metadata, similarity_search, hq]
  · intro docs hok
    refine ⟨by simp [inspect_metadata, hok], ?_⟩
    intro d hd kv hkv
    exact aggregateMetadata_complete docs d kv hd hkv

/-- Witness for the amended C8: at a concrete store the sample search
returns `[dA, dC]` and the aggregated summary records all their metadata
entries. -/
theorem inspect_metadata_spec_witness :
    inspect_metadata vsW "s" 2 = Except.ok (aggregateMetadata [dA, dC]) ∧
      ∀ d ∈ [dA, dC], ∀ kv ∈ d.metadata,
        ∃ vals, (aggregateMetadata [dA, dC]).lookup kv.1 = some vals ∧
          kv.2 ∈ vals :=
  (inspect_metadata_spec vsW "s" 2).2 [dA, dC] rfl

end VectorSearch
